import Mathlib

/-!
Verification of `scripts/lib/openai_reddit.py`: the depth-profile resolution
performed by `search_reddit` and the response extraction/validation pipeline
`parse_reddit_response`.

The embedding models Python JSON-compatible values as the inductive `JVal`
(Python ints and floats are merged into one exact rational `num` constructor;
IEEE specials such as `nan`/`inf` and float rounding are outside the model).
Fallible Python operations (`float(...)`, `x in y`, iteration over
non-iterables, string indexing of non-mappings) are modelled in
`Except PyErr`, one constructor per Python exception class that the source
can raise on a JSON-shaped input.
-/

/-- Python exception classes reachable from `parse_reddit_response` on
JSON-shaped input. -/
inductive PyErr where
  | typeError
  | valueError
  | attributeError
deriving DecidableEq

/-- An exact Python number (int or float), kept as an unnormalized fraction
`n / d` with a positive denominator. Exact rationals subsume every value the
claims touch; IEEE rounding is outside the model. -/
structure PyNum where
  n : ℤ
  d : ℕ
  dpos : 0 < d

/-- The rational value of a number, for specification-level statements. -/
def PyNum.toRat (a : PyNum) : ℚ := (a.n : ℚ) / (a.d : ℚ)

/-- Strict comparison of values (cross-multiplication; denominators are
positive by construction). -/
def pyLtB (a b : PyNum) : Bool := decide (a.n * (b.d : ℤ) < b.n * (a.d : ℤ))

/-- Value equality of numbers, Python `==`. -/
def pyEqB (a b : PyNum) : Bool := decide (a.n * (b.d : ℤ) = b.n * (a.d : ℤ))

/-- The float `0.0`. -/
def pyZero : PyNum := ⟨0, 1, Nat.one_pos⟩

/-- The float `1.0`. -/
def pyOne : PyNum := ⟨1, 1, Nat.one_pos⟩

/-- The float literal `0.5` from the source's `item.get("relevance", 0.5)`. -/
def pyHalf : PyNum := ⟨1, 2, Nat.succ_pos 1⟩

/-- Numeric negation. -/
def PyNum.neg (a : PyNum) : PyNum := ⟨-a.n, a.d, a.dpos⟩

/-- The value `(i + f / 10^k) : one integer part, `k` fraction digits of
value `f`. -/
def decMant (i f k : ℕ) : PyNum :=
  ⟨((i * 10 ^ k + f : ℕ) : ℤ), 10 ^ k, Nat.pos_pow_of_pos k (by decide)⟩

/-- Scale a value by `10^e` where `e` is `emag` negated when `eneg`. -/
def decScale (m : PyNum) (eneg : Bool) (emag : ℕ) : PyNum :=
  if eneg then ⟨m.n, m.d * 10 ^ emag, Nat.mul_pos m.dpos (Nat.pos_pow_of_pos emag (by decide))⟩
  else ⟨m.n * ((10 ^ emag : ℕ) : ℤ), m.d, m.dpos⟩

/-- Apply a leading minus sign. -/
def decSign (sneg : Bool) (m : PyNum) : PyNum := if sneg then m.neg else m

/-- `max(0.0, x)` on floats: `x` when `0.0 < x`, else the `0.0` argument. -/
def pyMax0 (x : PyNum) : PyNum := if pyLtB pyZero x then x else pyZero

/-- `min(1.0, y)` on floats: `y` when `y < 1.0`, else the `1.0` argument. -/
def pyMin1 (y : PyNum) : PyNum := if pyLtB y pyOne then y else pyOne

/-- `min(1.0, max(0.0, x))`, the source's relevance clamp. -/
def clamp01 (x : PyNum) : PyNum := pyMin1 (pyMax0 x)

/-- A JSON-compatible Python value (`None`, `bool`, numbers, `str`, `list`,
`dict` with string keys). -/
inductive JVal where
  | null
  | bool (b : Bool)
  | num (q : PyNum)
  | str (s : String)
  | arr (elems : List JVal)
  | obj (fields : List (String × JVal))

mutual
/-- Python `==` restricted to JSON-shaped values (`int`/`float` are already
merged into one rational constructor, so structural equality agrees with
Python's numeric cross-type equality). -/
def jeq : JVal → JVal → Bool
  | .null, .null => true
  | .bool a, .bool b => a == b
  | .num a, .num b => pyEqB a b
  | .str a, .str b => a == b
  | .arr a, .arr b => jeqList a b
  | .obj a, .obj b => jeqObj a b
  | _, _ => false

def jeqList : List JVal → List JVal → Bool
  | [], [] => true
  | a :: as, b :: bs => jeq a b && jeqList as bs
  | _, _ => false

def jeqObj : List (String × JVal) → List (String × JVal) → Bool
  | [], [] => true
  | (ka, va) :: as, (kb, vb) :: bs => ka == kb && jeq va vb && jeqObj as bs
  | _, _ => false
end

instance : BEq JVal := ⟨jeq⟩

/-- Python truthiness of a JSON-shaped value: `None`, `False`, `0`, `""` and
empty containers are falsy, everything else truthy. -/
def truthy : JVal → Bool
  | .null => false
  | .bool b => b
  | .num q => q.n != 0
  | .str s => s != ("" : String)
  | .arr xs => !xs.isEmpty
  | .obj fs => !fs.isEmpty

/-- `d.get(k, default)` on a Python dict modelled as an association list.
Later duplicate keys overwrite earlier ones (as in `json.loads`), hence the
lookup scans from the right. -/
def dGet (fields : List (String × JVal)) (k : String) (d : JVal) : JVal :=
  match fields.reverse.find? (fun p => p.1 == k) with
  | some p => p.2
  | none => d

/-- `k in d` for a Python dict modelled as an association list. -/
def hasKey (fields : List (String × JVal)) (k : String) : Bool :=
  fields.any (fun p => p.1 == k)

/-- Substring containment on character lists: `needle in hay` for Python
strings. -/
def containsSub (needle hay : List Char) : Bool :=
  (List.range (hay.length + 1)).any (fun i => needle.isPrefixOf (hay.drop i))

/-- Python `needle in hay` where `needle` is a string literal and `hay` is an
arbitrary value: substring test on strings, element membership on lists, key
membership on dicts, `TypeError` otherwise. -/
def pyContains (needle : String) (hay : JVal) : Except PyErr Bool :=
  match hay with
  | .str s => .ok (containsSub needle.toList s.toList)
  | .arr xs => .ok (xs.contains (.str needle))
  | .obj fs => .ok (hasKey fs needle)
  | _ => .error .typeError

/-- ASCII whitespace, the subset of Python `str.strip`'s character class that
the claims depend on. -/
def isWsChar (c : Char) : Bool :=
  c == ' ' || c == '\t' || c == '\n' || c == '\r' || c == '\x0b' || c == '\x0c'

/-- Drop trailing characters satisfying `p`. -/
def dropTrail (p : Char → Bool) (l : List Char) : List Char :=
  (l.reverse.dropWhile p).reverse

/-- Python `str.strip()` on a character list. -/
def stripChars (l : List Char) : List Char :=
  dropTrail isWsChar (l.dropWhile isWsChar)

/-- Python `str.strip()`. -/
def pyStrip (s : String) : String :=
  ⟨stripChars s.toList⟩

/-- The character set of `lstrip("r/")`. -/
def isRSlash (c : Char) : Bool := c == 'r' || c == '/'

/-- Python `str.lstrip("r/")`: removes every leading character belonging to
the set `{r, /}`, not just the literal prefix `r/`. -/
def lstripRS (s : String) : String :=
  ⟨s.toList.dropWhile isRSlash⟩

/-- Decimal/rational rendering of a number for `str()`. Python's exact float
repr is abstracted: the only facts the development uses are that the result
never contains a dash after the leading position and never begins with `r`,
`/` or a whitespace character, which hold for this rendering as for
Python's. -/
def numRepr (q : PyNum) : String :=
  if q.d = 1 then toString q.n
  else toString q.n ++ ("/") ++ toString q.d

mutual
/-- Python `repr()` of a JSON-shaped value (string quoting approximated with
plain single quotes; the development only depends on container reprs starting
with a bracket character). -/
def pyRepr : JVal → String
  | .null => ("None")
  | .bool true => ("True")
  | .bool false => ("False")
  | .num q => numRepr q
  | .str s => ("\x27") ++ s ++ ("\x27")
  | .arr xs => ("[") ++ String.intercalate (", ") (pyReprList xs) ++ ("]")
  | .obj fs => ("\x7b") ++ String.intercalate (", ") (pyReprObj fs) ++ ("\x7d")

def pyReprList : List JVal → List String
  | [] => []
  | v :: vs => pyRepr v :: pyReprList vs

def pyReprObj : List (String × JVal) → List String
  | [] => []
  | (k, v) :: fs => (("\x27") ++ k ++ ("\x27: ") ++ pyRepr v) :: pyReprObj fs
end

/-- Python `str()` of a JSON-shaped value: strings verbatim, everything else
as `repr`. -/
def pyStr : JVal → String
  | .str s => s
  | v => pyRepr v

/-- Numeric value of a digit list. -/
def digitsNat (ds : List Char) : ℕ :=
  ds.foldl (fun a c => a * 10 + (c.toNat - '0'.toNat)) 0

/-- Exponent part of a Python float literal. -/
def parseExpPart (m : PyNum) (cs : List Char) : Option PyNum :=
  let (eneg, rest) :=
    match cs with
    | '-' :: r => (true, r)
    | '+' :: r => (false, r)
    | r => (false, r)
  let eDigits := rest.takeWhile Char.isDigit
  let rest1 := rest.dropWhile Char.isDigit
  if eDigits.isEmpty || !rest1.isEmpty then none
  else some (decScale m eneg (digitsNat eDigits))

/-- Parse the body of a Python float literal (whitespace already stripped):
`[sign] digits [. digits] [e [sign] digits]` with at least one mantissa
digit. Underscore separators and the `inf`/`nan` spellings accepted by
Python's `float` are outside the model. -/
def parseFloatBody (cs : List Char) : Option PyNum :=
  let (sneg, rest) :=
    match cs with
    | '-' :: r => (true, r)
    | '+' :: r => (false, r)
    | r => (false, r)
  let intDigits := rest.takeWhile Char.isDigit
  let rest1 := rest.dropWhile Char.isDigit
  let (fracDigits, rest2) :=
    match rest1 with
    | '.' :: r => (r.takeWhile Char.isDigit, r.dropWhile Char.isDigit)
    | r => ([], r)
  if intDigits.isEmpty && fracDigits.isEmpty then none
  else
    let mantissa :=
      decSign sneg (decMant (digitsNat intDigits) (digitsNat fracDigits) fracDigits.length)
    match rest2 with
    | [] => some mantissa
    | 'e' :: r => parseExpPart mantissa r
    | 'E' :: r => parseExpPart mantissa r
    | _ => none

/-- Python `float(x)` on a JSON-shaped value: numbers pass through, booleans
become 0/1, strings are parsed (after stripping whitespace) raising
`ValueError` on failure, everything else raises `TypeError`. -/
def pyFloat : JVal → Except PyErr PyNum
  | .num q => .ok q
  | .bool b => .ok (if b then pyOne else pyZero)
  | .str s =>
    match parseFloatBody (stripChars s.toList) with
    | some q => .ok q
    | none => .error .valueError
  | _ => .error .typeError

/-- `re.match(r'^\d{4}-\d{2}-\d{2}$', s)` succeeds: ten characters of shape
`dddd-dd-dd`, optionally followed by a single trailing newline (Python's `$`
matches before a trailing newline). `\d` is modelled as ASCII digits. -/
def matchDateLoose (s : String) : Bool :=
  match s.toList with
  | [a, b, c, d, '-', e, f, '-', g, h] =>
    a.isDigit && b.isDigit && c.isDigit && d.isDigit &&
      e.isDigit && f.isDigit && g.isDigit && h.isDigit
  | [a, b, c, d, '-', e, f, '-', g, h, '\n'] =>
    a.isDigit && b.isDigit && c.isDigit && d.isDigit &&
      e.isDigit && f.isDigit && g.isDigit && h.isDigit
  | _ => false

/-- The date shape the specification states: exactly `dddd-dd-dd`, no
trailing newline. Used to state claims, not taken from the source. -/
def matchDateExact (s : String) : Bool :=
  match s.toList with
  | [a, b, c, d, '-', e, f, '-', g, h] =>
    a.isDigit && b.isDigit && c.isDigit && d.isDigit &&
      e.isDigit && f.isDigit && g.isDigit && h.isDigit
  | _ => false


/-! ### `json.loads`: a strict RFC-8259 parser over character lists.

Recursion is on an explicit fuel counter (one unit per nesting level), so
totality is structural. `\uXXXX` escapes outside the valid scalar range and
surrogate pairing are approximated by `Char.ofNat`'s fallback; Python's
`NaN`/`Infinity` extensions are outside the model. -/

/-- JSON whitespace. -/
def isJsonWs (c : Char) : Bool :=
  [ ' ', '\t', '\n', '\r' ].contains c

/-- Skip JSON whitespace. -/
def skipWs (l : List Char) : List Char :=
  l.dropWhile isJsonWs

/-- Hexadecimal digit value, by code point. -/
def hexDigitVal (c : Char) : Option ℕ :=
  let n := c.toNat
  if 48 ≤ n && n ≤ 57 then some (n - 48)
  else if 97 ≤ n && n ≤ 102 then some (n - 87)
  else if 65 ≤ n && n ≤ 70 then some (n - 55)
  else none

/-- One-character JSON escape map. -/
def escMap (e : Char) : Option Char :=
  match e with
  | 'n' => some '\n'
  | 't' => some '\t'
  | 'r' => some '\r'
  | '"' => some '"'
  | '/' => some '/'
  | '\\' => some '\\'
  | 'b' => some '\x08'
  | 'f' => some '\x0c'
  | _ => none

/-- Body of a JSON string after the opening quote, with the standard escape
set; raw control characters are rejected (`json.loads` strict mode). -/
def parseJStringAux : List Char → List Char → Option (String × List Char)
  | _, [] => none
  | acc, c :: rest =>
    if c = '"' then some (⟨acc.reverse⟩, rest)
    else if c = '\\' then
      match rest with
      | 'u' :: h1 :: h2 :: h3 :: h4 :: rest2 =>
        (match hexDigitVal h1, hexDigitVal h2, hexDigitVal h3, hexDigitVal h4 with
         | some x1, some x2, some x3, some x4 =>
           parseJStringAux (Char.ofNat (x1 * 4096 + x2 * 256 + x3 * 16 + x4) :: acc) rest2
         | _, _, _, _ => none)
      | e :: rest2 =>
        (match escMap e with
         | some ce => parseJStringAux (ce :: acc) rest2
         | none => none)
      | [] => none
    else if c.toNat < 32 then none
    else parseJStringAux (c :: acc) rest

/-- Exponent suffix of a JSON number. -/
def jNumExp (m : PyNum) (cs : List Char) : Option (PyNum × List Char) :=
  let (eneg, r0) :=
    match cs with
    | '-' :: r => (true, r)
    | '+' :: r => (false, r)
    | r => (false, r)
  match r0.takeWhile Char.isDigit, r0.dropWhile Char.isDigit with
  | [], _ => none
  | eDigits, r1 => some (decScale m eneg (digitsNat eDigits), r1)

/-- Fraction-and-exponent suffix of a JSON number, applied to the integer
digits already read. -/
def jNumTail (sneg : Bool) (iVal : ℕ) (r1 : List Char) : Option (PyNum × List Char) :=
  let fracPart : Option ((List Char) × List Char) :=
    match r1 with
    | '.' :: r =>
      match r.takeWhile Char.isDigit, r.dropWhile Char.isDigit with
      | [], _ => none
      | fracDigits, rr => some (fracDigits, rr)
    | r => some ([], r)
  match fracPart with
  | none => none
  | some (fracDigits, r2) =>
    let m := decSign sneg (decMant iVal (digitsNat fracDigits) fracDigits.length)
    match r2 with
    | 'e' :: r => jNumExp m r
    | 'E' :: r => jNumExp m r
    | r => some (m, r)

/-- JSON number grammar `-? (0 | [1-9][0-9]*) (. [0-9]+)? ([eE][+-]?[0-9]+)?`,
evaluated exactly. -/
def parseJNumber (cs : List Char) : Option (PyNum × List Char) :=
  let (sneg, r0) :=
    match cs with
    | '-' :: r => (true, r)
    | r => (false, r)
  match r0.takeWhile Char.isDigit, r0.dropWhile Char.isDigit with
  | [], _ => none
  | intDigits, r1 =>
    if intDigits.length > 1 && intDigits.headI == '0' then none
    else jNumTail sneg (digitsNat intDigits) r1

mutual
/-- Parse one JSON value after skipping leading whitespace; fuel bounds the
nesting depth. -/
def parseJVal : ℕ → List Char → Option (JVal × List Char)
  | 0, _ => none
  | fuel + 1, cs =>
    let cs2 := skipWs cs
    if ("null").toList.isPrefixOf cs2 then some (.null, cs2.drop 4)
    else if ("true").toList.isPrefixOf cs2 then some (.bool true, cs2.drop 4)
    else if ("false").toList.isPrefixOf cs2 then some (.bool false, cs2.drop 5)
    else
    match cs2 with
    | '"' :: rest => (parseJStringAux [] rest).map fun p => (.str p.1, p.2)
    | '[' :: rest =>
      (match skipWs rest with
       | ']' :: rest2 => some (.arr [], rest2)
       | _ => (parseJItems fuel rest).map fun p => (.arr p.1, p.2))
    | '{' :: rest =>
      (match skipWs rest with
       | '}' :: rest2 => some (.obj [], rest2)
       | _ => (parseJMembers fuel rest).map fun p => (.obj p.1, p.2))
    | cs3 => (parseJNumber cs3).map fun p => (.num p.1, p.2)

/-- Comma-separated array elements up to the closing bracket. -/
def parseJItems : ℕ → List Char → Option (List JVal × List Char)
  | 0, _ => none
  | fuel + 1, cs =>
    match parseJVal fuel cs with
    | none => none
    | some (v, rest) =>
      match skipWs rest with
      | ',' :: rest2 =>
        (match parseJItems fuel rest2 with
         | none => none
         | some (vs, rest3) => some (v :: vs, rest3))
      | ']' :: rest2 => some ([v], rest2)
      | _ => none

/-- Comma-separated object members up to the closing brace. -/
def parseJMembers : ℕ → List Char → Option (List (String × JVal) × List Char)
  | 0, _ => none
  | fuel + 1, cs =>
    match skipWs cs with
    | '"' :: rest =>
      (match parseJStringAux [] rest with
       | none => none
       | some (k, rest1) =>
         match skipWs rest1 with
         | ':' :: rest2 =>
           (match parseJVal fuel rest2 with
            | none => none
            | some (v, rest3) =>
              match skipWs rest3 with
              | ',' :: rest4 =>
                (match parseJMembers fuel rest4 with
                 | none => none
                 | some (ms, rest5) => some ((k, v) :: ms, rest5))
              | '}' :: rest4 => some ([(k, v)], rest4)
              | _ => none)
         | _ => none)
    | _ => none
end

/-- `json.loads`: parse a whole string as one JSON document, requiring the
remainder to be whitespace. -/
def jsonLoads (s : String) : Option JVal :=
  let cs := s.toList
  match parseJVal (cs.length + 1) cs with
  | some (v, rest) => if (skipWs rest).isEmpty then some v else none
  | none => none

/-! ### `re.search(r'\{[\s\S]*"items"[\s\S]*\}', output_text)`

The leftmost-longest behaviour of the greedy pattern: the match starts at the
first `{` from which the pattern can complete, and ends at the last `}` that
still has some `"items"` occurrence strictly after that `{` and fully before
it. -/

/-- All indices at which `needle` occurs in `hay`. -/
def occIdxs (needle hay : List Char) : List ℕ :=
  (List.range hay.length).filter (fun i => needle.isPrefixOf (hay.drop i))

/-- The carved substring of the greedy `"items"` regex search, or `none` when
the pattern does not match. -/
def regexItemsSearch (s : String) : Option String :=
  let cs := s.toList
  let opens := occIdxs [ '\x7b' ] cs
  let closes := occIdxs [ '\x7d' ] cs
  let markers := occIdxs ("\"items\"").toList cs
  match opens.find? (fun p =>
      markers.any (fun q => decide (p < q) && closes.any (fun r => decide (q + 7 ≤ r)))) with
  | none => none
  | some p =>
    match (markers.filter (fun q => decide (p < q))).head? with
    | none => none
    | some qmin =>
      match (closes.filter (fun r => decide (qmin + 7 ≤ r))).getLast? with
      | none => none
      | some r => some ⟨(cs.drop p).take (r - p + 1)⟩

/-! ### Text extraction (source lines 150-177)

`output_text` starts as `""` and is threaded through the scan of a
list-valued `output`; entries overwrite it when their branch fires and leave
it unchanged otherwise; the scan stops at the first truthy value. -/

/-- Inner scan of a message entry's `content` list: Python sets `output_text`
to the `text` of the first entry of type `"output_text"` (even when that text
is empty) and breaks; `output_text` is left unchanged when no such entry
exists. -/
def contentScanList (ot : JVal) : List JVal → JVal
  | [] => ot
  | c :: rest =>
    match c with
    | .obj cfs =>
      if jeq (dGet cfs ("type") .null) (.str ("output_text")) then dGet cfs ("text") (.str (""))
      else contentScanList ot rest
    | _ => contentScanList ot rest

/-- `for c in content` over an arbitrary `content` value: iterating a string
or a dict yields one-character strings or keys, never dicts, so `output_text`
is unchanged; iterating `None`, a bool or a number raises `TypeError`. -/
def contentScan (ot : JVal) (content : JVal) : Except PyErr JVal :=
  match content with
  | .arr cs => .ok (contentScanList ot cs)
  | .str _ => .ok ot
  | .obj _ => .ok ot
  | _ => .error .typeError

/-- One iteration of the `for item in output` loop: returns the updated
`output_text`. -/
def entryStep (ot : JVal) (item : JVal) : Except PyErr JVal :=
  match item with
  | .obj fs =>
    if jeq (dGet fs ("type") .null) (.str ("message")) then
      contentScan ot (dGet fs ("content") (.arr []))
    else if hasKey fs ("text") then .ok (dGet fs ("text") .null)
    else .ok ot
  | .str s => .ok (.str s)
  | _ => .ok ot

/-- The `for item in output` loop with its `if output_text: break`. -/
def outputScan (ot : JVal) : List JVal → Except PyErr JVal
  | [] => .ok ot
  | item :: rest =>
    match entryStep ot item with
    | .error e => .error e
    | .ok ot2 => if truthy ot2 then .ok ot2 else outputScan ot2 rest

/-- Body of the `for choice in response["choices"]` loop over a list of
choices: the first choice containing `"message"` (Python `in`, so substring
on strings, membership on lists, key lookup on dicts) sets `output_text` to
`choice["message"].get("content", "")` and breaks; indexing a non-dict choice
raises `TypeError` and calling `.get` on a non-dict message raises
`AttributeError`. -/
def choicesList (ot : JVal) : List JVal → Except PyErr JVal
  | [] => .ok ot
  | choice :: rest =>
    match pyContains ("message") choice with
    | .error e => .error e
    | .ok false => choicesList ot rest
    | .ok true =>
      match choice with
      | .obj fs =>
        (match dGet fs ("message") .null with
         | .obj mfs => .ok (dGet mfs ("content") (.str ("")))
         | _ => .error .attributeError)
      | _ => .error .typeError

/-- `for choice in response["choices"]` over an arbitrary `choices` value:
iterating a string yields one-character strings which can never contain
`"message"`; iterating a dict yields its keys, and a key containing
`"message"` is then string-indexed, raising `TypeError`; iterating `None`, a
bool or a number raises `TypeError` outright. -/
def choicesScan (ot : JVal) (choices : JVal) : Except PyErr JVal :=
  match choices with
  | .arr cs => choicesList ot cs
  | .str _ => .ok ot
  | .obj fs =>
    if fs.any (fun p => containsSub ("message").toList p.1.toList) then .error .typeError
    else .ok ot
  | _ => .error .typeError

/-- Source lines 150-177: compute the final `output_text` value, including
the legacy `choices` fallback, before the emptiness check and the regex
carve. -/
def computeOutputText (response : List (String × JVal)) : Except PyErr JVal :=
  let afterOutput : Except PyErr JVal :=
    if hasKey response ("output") then
      match dGet response ("output") .null with
      | .str s => .ok (.str s)
      | .arr items => outputScan (.str ("")) items
      | _ => .ok (.str (""))
    else .ok (.str (""))
  match afterOutput with
  | .error e => .error e
  | .ok ot =>
    if !truthy ot && hasKey response ("choices") then
      choicesScan ot (dGet response ("choices") .null)
    else .ok ot

/-! ### Per-item validation (source lines 193-217) -/

/-- A normalized item record as built by the validation loop. `url` and
`date` keep their raw `JVal` because the source stores them unconverted. -/
structure RedditItem where
  id : String
  title : String
  url : JVal
  subreddit : String
  date : JVal
  why_relevant : String
  relevance : PyNum

/-- Normalize one candidate item at enumerate index `i` (0-based):
`.ok none` models `continue`, `.ok (some it)` a kept record, `.error` an
escaping exception (`float` of a non-numeric string or `in` on a
non-container url). -/
def normItem (i : ℕ) (item : JVal) : Except PyErr (Option RedditItem) :=
  match item with
  | .obj fields =>
    let url := dGet fields ("url") (.str (""))
    if !truthy url then .ok none
    else
      match pyContains ("reddit.com") url with
      | .error e => .error e
      | .ok false => .ok none
      | .ok true =>
        let title := pyStrip (pyStr (dGet fields ("title") (.str (""))))
        let subreddit := lstripRS (pyStrip (pyStr (dGet fields ("subreddit") (.str ("")))))
        let date0 := dGet fields ("date") .null
        let why := pyStrip (pyStr (dGet fields ("why_relevant") (.str (""))))
        match pyFloat (dGet fields ("relevance") (.num pyHalf)) with
        | .error e => .error e
        | .ok rel =>
          let date := if truthy date0 && !matchDateLoose (pyStr date0) then JVal.null else date0
          .ok (some
            { id := ("R") ++ toString (i + 1), title := title, url := url,
              subreddit := subreddit, date := date, why_relevant := why,
              relevance := clamp01 rel })
  | _ => .ok none

/-- The `for i, item in enumerate(items)` loop from start index `i`,
appending kept records in order. -/
def validateGo (i : ℕ) : List JVal → Except PyErr (List RedditItem)
  | [] => .ok []
  | v :: rest =>
    match normItem i v with
    | .error e => .error e
    | .ok o =>
      match validateGo (i + 1) rest with
      | .error e => .error e
      | .ok tail =>
        match o with
        | none => .ok tail
        | some it => .ok (it :: tail)

/-- `enumerate(items)` over the arbitrary value `data.get("items", [])`:
lists enumerate their elements; strings enumerate one-character strings and
dicts their keys, none of which are mappings, so every entry is skipped;
`None`, bools and numbers are not iterable. -/
def pyEnumValidate (items : JVal) : Except PyErr (List RedditItem) :=
  match items with
  | .arr xs => validateGo 0 xs
  | .str _ => .ok []
  | .obj _ => .ok []
  | _ => .error .typeError

/-! ### `parse_reddit_response` (source lines 130-219) -/

/-- The parsed `items` value: regex carve then `json.loads` with
`JSONDecodeError` swallowed (`items` stays `[]`), then `data.get("items",
[])`. A carved text parses to an object whenever it parses at all (it starts
with a brace), so the non-object branch mirrors Python's `data.get` attribute
lookup vacuously. -/
def extractItemsVal (s : String) : Except PyErr JVal :=
  match regexItemsSearch s with
  | none => .ok (.arr [])
  | some sub =>
    match jsonLoads sub with
    | none => .ok (.arr [])
    | some data =>
      match data with
      | .obj fs => .ok (dGet fs ("items") (.arr []))
      | _ => .error .attributeError

/-- `parse_reddit_response(response)`: error short-circuit, text extraction,
regex carve, JSON decode, per-item validation. `.ok` is the returned list,
`.error` an escaping Python exception. -/
def parse_reddit_response (response : List (String × JVal)) : Except PyErr (List RedditItem) :=
  if hasKey response ("error") && truthy (dGet response ("error") .null) then .ok []
  else
    match computeOutputText response with
    | .error e => .error e
    | .ok ot =>
      if !truthy ot then .ok []
      else
        match ot with
        | .str s =>
          (match extractItemsVal s with
           | .error e => .error e
           | .ok items => pyEnumValidate items)
        | _ => .error .typeError

/-! ### Depth profile resolution inside `search_reddit` (source lines 19-23,
95, 103) -/

/-- `DEPTH_CONFIG`: depth tag to `(min, max)` threads to request. -/
def DEPTH_CONFIG : List (String × ℕ × ℕ) :=
  [(("quick"), (8, 12)), (("default"), (20, 30)), (("deep"), (50, 70))]

/-- The bounds-and-timeout profile a `search_reddit` call resolves. -/
structure RequestProfile where
  min_items : ℕ
  max_items : ℕ
  timeout : ℕ
deriving DecidableEq

/-- The profile resolution performed inside `search_reddit`:
`DEPTH_CONFIG.get(depth, DEPTH_CONFIG["default"])` for the bounds (line 95)
and the conditional chain `60 if quick else 90 if default else 120` for the
timeout (line 103). -/
def search_reddit_profile (depth : String) : RequestProfile :=
  let bounds :=
    match DEPTH_CONFIG.find? (fun p => p.1 == depth) with
    | some p => p.2
    | none => (20, 30)
  { min_items := bounds.1, max_items := bounds.2,
    timeout := if depth == ("quick") then 60 else if depth == ("default") then 90 else 120 }

/-! ### Specification-side definitions.

The definitions below are written from the specification's words (priority
ordered extractor strategies; re-embedding of normalized output), to be
compared with the source-side functions above. -/

/-- Spec step 2b, inner part: the candidate text a `message` entry offers,
namely the `text` of the first `content` entry of type `"output_text"`. -/
def contentFind : List JVal → Option JVal
  | [] => none
  | c :: rest =>
    match c with
    | .obj cfs =>
      if jeq (dGet cfs ("type") .null) (.str ("output_text")) then
        some (dGet cfs ("text") (.str ("")))
      else contentFind rest
    | _ => contentFind rest

/-- The candidate text a single `output` entry offers, per the spec's three
entry shapes: a `message` mapping offers its first `output_text` content
entry's text, a mapping with a `text` field offers that field, and a plain
string offers itself; other entries offer nothing. Iterating a non-iterable
`content` raises, as in the source. -/
def specEntryText (item : JVal) : Except PyErr (Option JVal) :=
  match item with
  | .obj fs =>
    if jeq (dGet fs ("type") .null) (.str ("message")) then
      match dGet fs ("content") (.arr []) with
      | .arr cs => .ok (contentFind cs)
      | .str _ => .ok none
      | .obj _ => .ok none
      | _ => .error .typeError
    else if hasKey fs ("text") then .ok (some (dGet fs ("text") .null))
    else .ok none
  | .str s => .ok (some (.str s))
  | _ => .ok none

/-- Spec step 2b: scan the `output` list in order and stop at the first
entry offering a non-empty (truthy) candidate text. -/
def specScanOutput : List JVal → Except PyErr (Option JVal)
  | [] => .ok none
  | e :: rest =>
    match specEntryText e with
    | .error err => .error err
    | .ok (some t) => if truthy t then .ok (some t) else specScanOutput rest
    | .ok none => specScanOutput rest

/-- The claim's reading of the legacy fallback: take the FIRST choice's
`message.content` (a first choice without a `message` key offers nothing). -/
def specChoicesHead : List JVal → Except PyErr (Option JVal)
  | [] => .ok none
  | choice :: _ =>
    match choice with
    | .obj fs =>
      if hasKey fs ("message") then
        match dGet fs ("message") .null with
        | .obj mfs =>
          .ok (if truthy (dGet mfs ("content") (.str (""))) then
                 some (dGet mfs ("content") (.str (""))) else none)
        | _ => .error .attributeError
      else .ok none
    | _ => .ok none

/-- The amended reading of the legacy fallback: take the `message.content`
of the first choice CONTAINING `"message"` (Python containment), with the
source's error behaviour on malformed choices. -/
def specChoicesScan : List JVal → Except PyErr (Option JVal)
  | [] => .ok none
  | choice :: rest =>
    match pyContains ("message") choice with
    | .error e => .error e
    | .ok false => specChoicesScan rest
    | .ok true =>
      match choice with
      | .obj fs =>
        (match dGet fs ("message") .null with
         | .obj mfs =>
           .ok (if truthy (dGet mfs ("content") (.str (""))) then
                  some (dGet mfs ("content") (.str (""))) else none)
         | _ => .error .attributeError)
      | _ => .error .typeError

/-- The spec-side `output` strategies: a string `output` is used verbatim
(offered only when non-empty), a list `output` is scanned, anything else
offers nothing. -/
def specOutputPart (response : List (String × JVal)) : Except PyErr (Option JVal) :=
  if hasKey response ("output") then
    match dGet response ("output") .null with
    | .str s => .ok (if truthy (JVal.str s) then some (.str s) else none)
    | .arr es => specScanOutput es
    | _ => .ok none
  else .ok none

/-- The spec-side reading of an arbitrary `choices` value, parameterized by
the per-choice scan; non-list values mirror the source's iteration
behaviour. -/
def specChoicesOn (scan : List JVal → Except PyErr (Option JVal)) :
    JVal → Except PyErr (Option JVal)
  | .arr cs => scan cs
  | .str _ => .ok none
  | .obj fs =>
    if fs.any (fun p => containsSub ("message").toList p.1.toList) then .error .typeError
    else .ok none
  | _ => .error .typeError

/-- The spec-side `choices` fallback wrapper. -/
def specChoicesPart (scan : List JVal → Except PyErr (Option JVal))
    (response : List (String × JVal)) : Except PyErr (Option JVal) :=
  if hasKey response ("choices") then specChoicesOn scan (dGet response ("choices") .null)
  else .ok none

/-- The claim's extraction contract: ordered strategies, first non-empty
match wins, `choices` (read as "first choice's `message.content`") consulted
only if the `output` strategies found nothing. -/
def specOutputTextClaim (response : List (String × JVal)) : Except PyErr (Option JVal) :=
  match specOutputPart response with
  | .error e => .error e
  | .ok (some t) => .ok (some t)
  | .ok none => specChoicesPart specChoicesHead response

/-- The amended extraction contract: as the claim, but the fallback takes
the first choice CONTAINING a `message` key. -/
def specOutputTextAmended (response : List (String × JVal)) : Except PyErr (Option JVal) :=
  match specOutputPart response with
  | .error e => .error e
  | .ok (some t) => .ok (some t)
  | .ok none => specChoicesPart specChoicesScan response

/-- Correspondence between the source-side extraction (a final `output_text`
value) and a spec-side extraction (an optional found text): they raise the
same error, or the spec finds exactly the truthy source value, or the spec
finds nothing and the source value is falsy. -/
def extractRel (a : Except PyErr JVal) (b : Except PyErr (Option JVal)) : Prop :=
  match a, b with
  | .ok v, .ok (some t) => v = t ∧ truthy v = true
  | .ok v, .ok none => truthy v = false
  | .error e, .error e2 => e = e2
  | _, _ => False

/-! ### Re-embedding of normalized output (claim C8) and claim predicates -/

/-- The field list of a normalized item, re-embedded as the JSON-shaped dict
Python's `json.dumps`/`json.loads` round-trip would reproduce. -/
def itemFields (it : RedditItem) : List (String × JVal) :=
  [(("id"), .str it.id), (("title"), .str it.title), (("url"), it.url),
   (("subreddit"), .str it.subreddit), (("date"), it.date),
   (("why_relevant"), .str it.why_relevant), (("relevance"), .num it.relevance)]

/-- A normalized item, re-embedded as a JSON-shaped dict. -/
def itemToJVal (it : RedditItem) : JVal :=
  .obj (itemFields it)

/-- What a second validation pass does to an already-normalized item: the id
is recomputed from the new position and the subreddit is whitespace-stripped
and lstrip-ed again; every other field is untouched. -/
def secondPass (i : ℕ) (it : RedditItem) : RedditItem :=
  { it with id := ("R") ++ toString (i + 1),
            subreddit := lstripRS (pyStrip it.subreddit) }

/-- `secondPass` applied along a list with consecutive positions. -/
def reNumber : ℕ → List RedditItem → List RedditItem
  | _, [] => []
  | i, it :: rest => secondPass i it :: reNumber (i + 1) rest

/-- The claim's url invariant: the url is a string containing the substring
`"reddit.com"`. -/
def urlSubstrOK : JVal → Bool
  | .str s => containsSub ("reddit.com").toList s.toList
  | _ => false

/-- The claim's date invariant: null, or a string matching
`^\d\x7b4\x7d-\d\x7b2\x7d-\d\x7b2\x7d$` exactly. -/
def dateClaimOK : JVal → Bool
  | .null => true
  | .str s => matchDateExact s
  | _ => false

/-- The subreddit never begins with `r` or `/`. -/
def noLeadRS (s : String) : Bool :=
  match s.toList with
  | [] => true
  | c :: _ => !isRSlash c

/-- The string does not begin with a whitespace character. -/
def noLeadWs (s : String) : Bool :=
  match s.toList with
  | [] => true
  | c :: _ => !isWsChar c

/-- The string does not end with a whitespace character. -/
def noTrailWs (s : String) : Bool :=
  match s.toList.getLast? with
  | none => true
  | some c => !isWsChar c

/-- The field facts every item produced by `normItem` satisfies; exactly
what a second validation pass needs to reproduce the item. -/
def NormalizedFields (it : RedditItem) : Prop :=
  pyStrip it.title = it.title ∧
  pyStrip it.why_relevant = it.why_relevant ∧
  truthy it.url = true ∧
  pyContains ("reddit.com") it.url = .ok true ∧
  (truthy it.date = true → matchDateLoose (pyStr it.date) = true) ∧
  clamp01 it.relevance = it.relevance ∧
  noTrailWs it.subreddit = true ∧
  noLeadRS it.subreddit = true

/-! ### Order facts about the relevance clamp -/

theorem pyLtB_iff (a b : PyNum) : pyLtB a b = true ↔ a.toRat < b.toRat := by
  unfold pyLtB PyNum.toRat
  rw [decide_eq_true_eq,
    div_lt_div_iff₀ (by exact_mod_cast a.dpos) (by exact_mod_cast b.dpos)]
  constructor <;> intro h <;> exact_mod_cast h

theorem pyZero_toRat : pyZero.toRat = 0 := by norm_num [PyNum.toRat, pyZero]

theorem pyOne_toRat : pyOne.toRat = 1 := by norm_num [PyNum.toRat, pyOne]

theorem pyMax0_cases (x : PyNum) : (pyMax0 x = x ∧ 0 < x.toRat) ∨ pyMax0 x = pyZero := by
  unfold pyMax0
  by_cases h : pyLtB pyZero x = true
  · left
    rw [if_pos h]
    refine ⟨rfl, ?_⟩
    have := (pyLtB_iff _ _).mp h
    rwa [pyZero_toRat] at this
  · right
    rw [if_neg h]

theorem pyMin1_cases (y : PyNum) : (pyMin1 y = y ∧ y.toRat < 1) ∨ pyMin1 y = pyOne := by
  unfold pyMin1
  by_cases h : pyLtB y pyOne = true
  · left
    rw [if_pos h]
    refine ⟨rfl, ?_⟩
    have := (pyLtB_iff _ _).mp h
    rwa [pyOne_toRat] at this
  · right
    rw [if_neg h]

theorem clamp01_toRat_nonneg (x : PyNum) : 0 ≤ (clamp01 x).toRat := by
  unfold clamp01
  rcases pyMax0_cases x with ⟨hm, hx⟩ | hm <;> rw [hm]
  · rcases pyMin1_cases x with ⟨h2, _⟩ | h2 <;> rw [h2]
    · linarith
    · rw [pyOne_toRat]
      norm_num
  · rcases pyMin1_cases pyZero with ⟨h2, _⟩ | h2 <;> rw [h2]
    · rw [pyZero_toRat]
    · rw [pyOne_toRat]
      norm_num

theorem clamp01_toRat_le_one (x : PyNum) : (clamp01 x).toRat ≤ 1 := by
  unfold clamp01
  rcases pyMax0_cases x with ⟨hm, hx⟩ | hm <;> rw [hm]
  · rcases pyMin1_cases x with ⟨h2, hlt⟩ | h2 <;> rw [h2]
    · linarith
    · rw [pyOne_toRat]
  · rcases pyMin1_cases pyZero with ⟨h2, _⟩ | h2 <;> rw [h2]
    · rw [pyZero_toRat]
      norm_num
    · rw [pyOne_toRat]

theorem clamp01_pyZero : clamp01 pyZero = pyZero := rfl

theorem clamp01_pyOne : clamp01 pyOne = pyOne := rfl

theorem clamp01_idem (x : PyNum) : clamp01 (clamp01 x) = clamp01 x := by
  have hcases : clamp01 x = pyZero ∨ clamp01 x = pyOne ∨ clamp01 x = x := by
    unfold clamp01 pyMin1 pyMax0
    split_ifs <;> simp
  rcases hcases with h | h | h
  · rw [h, clamp01_pyZero]
  · rw [h, clamp01_pyOne]
  · rw [h]
    exact h

/-! ### Facts about `strip` and `lstrip` -/

theorem dropWhile_head_false {p : Char → Bool} :
    ∀ {l c rest}, List.dropWhile p l = c :: rest → p c = false := by
  intro l
  induction l with
  | nil => intro c rest h; simp [List.dropWhile] at h
  | cons a as ih =>
    intro c rest h
    rw [List.dropWhile_cons] at h
    by_cases hp : p a = true
    · rw [if_pos hp] at h
      exact ih h
    · rw [if_neg hp] at h
      injection h with h1 _
      subst h1
      simpa using hp

theorem rdropWhile_head? {p : Char → Bool} {l c rest}
    (h : List.rdropWhile p l = c :: rest) : l.head? = some c := by
  obtain ⟨t, ht⟩ := List.rdropWhile_prefix p l
  rw [h] at ht
  rw [← ht]
  rfl

theorem rdropWhile_last_false {p : Char → Bool} {l c}
    (h : (List.rdropWhile p l).getLast? = some c) : p c = false := by
  have hne : List.rdropWhile p l ≠ [] := by
    intro hnil
    rw [hnil] at h
    simp at h
  have hnot := List.rdropWhile_last_not p l hne
  rw [List.getLast?_eq_getLast_of_ne_nil hne] at h
  injection h with h1
  rw [h1] at hnot
  simpa using hnot

theorem dropTrail_eq (p : Char → Bool) (l : List Char) :
    dropTrail p l = List.rdropWhile p l := rfl

theorem noLeadWs_pyStrip (s : String) : noLeadWs (pyStrip s) = true := by
  unfold noLeadWs pyStrip stripChars
  rw [dropTrail_eq]
  cases hsd : List.rdropWhile isWsChar (s.toList.dropWhile isWsChar) with
  | nil => rfl
  | cons c rest =>
    have hh := rdropWhile_head? hsd
    cases hdw : s.toList.dropWhile isWsChar with
    | nil =>
      rw [hdw] at hh
      simp at hh
    | cons c2 rest2 =>
      rw [hdw] at hh
      injection hh with h1
      subst h1
      have hfalse := dropWhile_head_false hdw
      simp [hfalse]

theorem noTrailWs_pyStrip (s : String) : noTrailWs (pyStrip s) = true := by
  unfold noTrailWs pyStrip stripChars
  rw [dropTrail_eq]
  show (match (List.rdropWhile isWsChar (s.toList.dropWhile isWsChar)).getLast? with
        | none => true
        | some c => !isWsChar c) = true
  cases hg : (List.rdropWhile isWsChar (s.toList.dropWhile isWsChar)).getLast? with
  | none => rfl
  | some c =>
    have := rdropWhile_last_false hg
    simp [this]

theorem pyStrip_eq_self {s : String} (h1 : noLeadWs s = true) (h2 : noTrailWs s = true) :
    pyStrip s = s := by
  have hdw : s.toList.dropWhile isWsChar = s.toList := by
    cases hl : s.toList with
    | nil => rfl
    | cons c rest =>
      unfold noLeadWs at h1
      rw [hl] at h1
      simp only [Bool.not_eq_true'] at h1
      rw [List.dropWhile_cons, if_neg (by simp [h1])]
  have hrd : List.rdropWhile isWsChar s.toList = s.toList := by
    rw [List.rdropWhile_eq_self_iff]
    intro hl
    unfold noTrailWs at h2
    rw [List.getLast?_eq_getLast_of_ne_nil hl] at h2
    simpa using h2
  show (⟨List.rdropWhile isWsChar (s.toList.dropWhile isWsChar)⟩ : String) = s
  rw [hdw, hrd]
  rfl

theorem pyStrip_idem (s : String) : pyStrip (pyStrip s) = pyStrip s :=
  pyStrip_eq_self (noLeadWs_pyStrip s) (noTrailWs_pyStrip s)

theorem noLeadRS_lstripRS (s : String) : noLeadRS (lstripRS s) = true := by
  unfold noLeadRS lstripRS
  cases hdw : s.toList.dropWhile isRSlash with
  | nil => rfl
  | cons c rest =>
    have := dropWhile_head_false hdw
    simp [this]

theorem lstripRS_eq_self {s : String} (h : noLeadRS s = true) : lstripRS s = s := by
  have hdw : s.toList.dropWhile isRSlash = s.toList := by
    cases hl : s.toList with
    | nil => rfl
    | cons c rest =>
      unfold noLeadRS at h
      rw [hl] at h
      simp only [Bool.not_eq_true'] at h
      rw [List.dropWhile_cons, if_neg (by simp [h])]
  show (⟨s.toList.dropWhile isRSlash⟩ : String) = s
  rw [hdw]
  rfl

theorem noTrailWs_lstripRS {s : String} (h : noTrailWs s = true) :
    noTrailWs (lstripRS s) = true := by
  unfold noTrailWs lstripRS
  show (match (s.toList.dropWhile isRSlash).getLast? with
        | none => true
        | some c => !isWsChar c) = true
  obtain ⟨t, ht⟩ := List.dropWhile_suffix (l := s.toList) isRSlash
  cases hdw : s.toList.dropWhile isRSlash with
  | nil => rfl
  | cons c rest =>
    rw [hdw] at ht
    unfold noTrailWs at h
    rw [← ht, List.getLast?_append] at h
    cases hg : (c :: rest).getLast? with
    | none => rfl
    | some c2 =>
      rw [hg] at h
      simpa using h

/-! ### Shape of a kept item -/

theorem normItem_ok_elim {i : ℕ} {v : JVal} {it : RedditItem}
    (h : normItem i v = .ok (some it)) :
    ∃ fields rel,
      v = .obj fields ∧
      truthy (dGet fields ("url") (.str (""))) = true ∧
      pyContains ("reddit.com") (dGet fields ("url") (.str (""))) = .ok true ∧
      pyFloat (dGet fields ("relevance") (.num pyHalf)) = .ok rel ∧
      it = { id := ("R") ++ toString (i + 1),
             title := pyStrip (pyStr (dGet fields ("title") (.str ("")))),
             url := dGet fields ("url") (.str ("")),
             subreddit := lstripRS (pyStrip (pyStr (dGet fields ("subreddit") (.str (""))))),
             date := if truthy (dGet fields ("date") .null) &&
                        !matchDateLoose (pyStr (dGet fields ("date") .null)) then JVal.null
                     else dGet fields ("date") .null,
             why_relevant := pyStrip (pyStr (dGet fields ("why_relevant") (.str ("")))),
             relevance := clamp01 rel } := by
  cases v with
  | obj fields =>
    refine ⟨fields, ?_⟩
    simp only [normItem] at h
    by_cases hu : truthy (dGet fields ("url") (.str (""))) = true
    · rw [hu] at h
      rw [Bool.not_true] at h
      rw [if_neg (show ¬(false = true) by decide)] at h
      cases hc : pyContains ("reddit.com") (dGet fields ("url") (.str (""))) with
      | error e => rw [hc] at h; simp at h
      | ok b =>
        rw [hc] at h
        cases b with
        | false => simp at h
        | true =>
          cases hf : pyFloat (dGet fields ("relevance") (.num pyHalf)) with
          | error e => rw [hf] at h; simp at h
          | ok rel =>
            rw [hf] at h
            simp only [Except.ok.injEq, Option.some.injEq] at h
            exact ⟨rel, rfl, hu, rfl, rfl, h.symm⟩
    · have hu2 : truthy (dGet fields ("url") (.str (""))) = false := by
        simpa using hu
      rw [hu2] at h
      simp at h
  | null => simp [normItem] at h
  | bool b => simp [normItem] at h
  | num q => simp [normItem] at h
  | str s => simp [normItem] at h
  | arr xs => simp [normItem] at h

theorem date_if_fact (d0 : JVal)
    (hd : truthy (if truthy d0 && !matchDateLoose (pyStr d0) then JVal.null else d0) = true) :
    matchDateLoose (pyStr (if truthy d0 && !matchDateLoose (pyStr d0) then JVal.null else d0)) = true := by
  by_cases hcond : (truthy d0 && !matchDateLoose (pyStr d0)) = true
  · rw [if_pos hcond] at hd
    simp [truthy] at hd
  · rw [if_neg hcond] at hd ⊢
    by_cases hm : matchDateLoose (pyStr d0) = true
    · exact hm
    · exfalso
      apply hcond
      rw [hd]
      have hm2 : matchDateLoose (pyStr d0) = false := by simpa using hm
      rw [hm2]
      rfl

theorem normItem_facts {i : ℕ} {v : JVal} {it : RedditItem}
    (h : normItem i v = .ok (some it)) :
    it.id = ("R") ++ toString (i + 1) ∧
    truthy it.url = true ∧
    pyContains ("reddit.com") it.url = .ok true ∧
    (0 ≤ it.relevance.toRat ∧ it.relevance.toRat ≤ 1) ∧
    (truthy it.date = true → matchDateLoose (pyStr it.date) = true) ∧
    noLeadRS it.subreddit = true := by
  obtain ⟨fields, rel, hv, hu, hc, hf, hit⟩ := normItem_ok_elim h
  subst hit
  exact ⟨rfl, hu, hc, ⟨clamp01_toRat_nonneg rel, clamp01_toRat_le_one rel⟩,
    date_if_fact _, noLeadRS_lstripRS _⟩

theorem normItem_normalized {i : ℕ} {v : JVal} {it : RedditItem}
    (h : normItem i v = .ok (some it)) : NormalizedFields it := by
  obtain ⟨fields, rel, hv, hu, hc, hf, hit⟩ := normItem_ok_elim h
  subst hit
  exact ⟨pyStrip_idem _, pyStrip_idem _, hu, hc, date_if_fact _, clamp01_idem rel,
    noTrailWs_lstripRS (noTrailWs_pyStrip _), noLeadRS_lstripRS _⟩

theorem validateGo_mem {i : ℕ} {vs : List JVal} {l : List RedditItem}
    (h : validateGo i vs = .ok l) :
    ∀ it ∈ l, ∃ j v, normItem j v = .ok (some it) := by
  induction vs generalizing i l with
  | nil =>
    simp only [validateGo, Except.ok.injEq] at h
    subst h
    intro it hit
    simp at hit
  | cons v rest ih =>
    simp only [validateGo] at h
    cases hn : normItem i v with
    | error e => rw [hn] at h; simp at h
    | ok o =>
      rw [hn] at h
      cases ht : validateGo (i + 1) rest with
      | error e => rw [ht] at h; simp at h
      | ok tail =>
        rw [ht] at h
        cases o with
        | none =>
          simp only [Except.ok.injEq] at h
          subst h
          exact fun it hit => ih ht it hit
        | some x =>
          simp only [Except.ok.injEq] at h
          subst h
          intro it hit
          rcases List.mem_cons.mp hit with rfl | hmem
          · exact ⟨i, v, hn⟩
          · exact ih ht it hmem

theorem parse_ok_cases {r : List (String × JVal)} {l : List RedditItem}
    (h : parse_reddit_response r = .ok l) :
    l = [] ∨ ∃ xs, validateGo 0 xs = .ok l := by
  unfold parse_reddit_response at h
  by_cases he : (hasKey r ("error") && truthy (dGet r ("error") .null)) = true
  · rw [if_pos he] at h
    injection h with h1
    exact Or.inl h1.symm
  · rw [if_neg he] at h
    cases hco : computeOutputText r with
    | error e => rw [hco] at h; simp at h
    | ok ot =>
      rw [hco] at h
      simp only [] at h
      by_cases hot : truthy ot = true
      · rw [hot] at h
        rw [if_neg (show ¬((!true) = true) by decide)] at h
        cases ot with
        | str s =>
          simp only [] at h
          cases hx : extractItemsVal s with
          | error e => rw [hx] at h; simp at h
          | ok items =>
            rw [hx] at h
            cases items with
            | arr xs => exact Or.inr ⟨xs, h⟩
            | str s2 => injection h with h1; exact Or.inl h1.symm
            | obj fs => injection h with h1; exact Or.inl h1.symm
            | null => simp [pyEnumValidate] at h
            | bool b => simp [pyEnumValidate] at h
            | num q => simp [pyEnumValidate] at h
        | null => simp at h
        | bool b => simp at h
        | num q => simp at h
        | arr xs => simp at h
        | obj fs => simp at h
      · have hot2 : truthy ot = false := by simpa using hot
        rw [hot2] at h
        rw [if_pos (show (!false) = true by decide)] at h
        injection h with h1
        exact Or.inl h1.symm

theorem parse_ok_mem {r : List (String × JVal)} {l : List RedditItem}
    (h : parse_reddit_response r = .ok l) :
    ∀ it ∈ l, ∃ j v, normItem j v = .ok (some it) := by
  rcases parse_ok_cases h with rfl | ⟨xs, hx⟩
  · intro it hit
    simp at hit
  · exact validateGo_mem hx

/-! ### Concrete responses used by the claims -/

/-- Response whose item has the non-numeric relevance string `"high"`. -/
def c1_resp : List (String × JVal) :=
  [(("output"), .str ("\x7b\"items\":[\x7b\"url\":\"reddit.com\",\"relevance\":\"high\"\x7d]\x7d"))]

/-- Response for the C3 witness: a truthy error next to an otherwise
parseable output. -/
def c3_wit_resp : List (String × JVal) :=
  [(("error"), .str ("rate limited")),
   (("output"), .str ("\x7b\"items\":[\x7b\"url\":\"reddit.com\"\x7d]\x7d"))]

/-- Response whose item has a list-valued url containing the element
`"reddit.com"`. -/
def c4_resp : List (String × JVal) :=
  [(("output"), .str ("\x7b\"items\":[\x7b\"url\":[\"reddit.com\"]\x7d]\x7d"))]

/-- Response for the C4 witness: one ordinary item. -/
def c4_wit_resp : List (String × JVal) :=
  [(("output"), .str ("\x7b\"items\":[\x7b\"url\":\"https://www.reddit.com/r/a/comments/1/\"\x7d]\x7d"))]

/-- The single item `parse_reddit_response` yields on `c4_wit_resp`. -/
def c4_wit_item : RedditItem :=
  { id := ("R1"), title := (""), url := .str ("https://www.reddit.com/r/a/comments/1/"),
    subreddit := (""), date := .null, why_relevant := (""), relevance := pyHalf }

/-- Response whose item carries the empty-string date. -/
def c5_resp : List (String × JVal) :=
  [(("output"), .str ("\x7b\"items\":[\x7b\"url\":\"reddit.com\",\"date\":\"\"\x7d]\x7d"))]

/-- Response for the C5 witness: a well-formed date. -/
def c5_wit_resp : List (String × JVal) :=
  [(("output"), .str ("\x7b\"items\":[\x7b\"url\":\"reddit.com\",\"date\":\"2024-01-02\"\x7d]\x7d"))]

/-- The single item `parse_reddit_response` yields on `c5_wit_resp`. -/
def c5_wit_item : RedditItem :=
  { id := ("R1"), title := (""), url := .str ("reddit.com"),
    subreddit := (""), date := .str ("2024-01-02"), why_relevant := (""), relevance := pyHalf }

/-- The C7 scenario response: an `items` object embedded in prose, with an
out-of-range relevance. -/
def c7_resp : List (String × JVal) :=
  [(("output"), .str ("noise \x7b\"items\":[\x7b\"title\":\"T\",\"url\":\"https://reddit.com/r/x/comments/1/t/\",\"relevance\":1.7\x7d]\x7d trailing"))]

/-- Response whose item has subreddit `"rust"` (no `r/` prefix). -/
def c10_resp : List (String × JVal) :=
  [(("output"), .str ("\x7b\"items\":[\x7b\"url\":\"https://reddit.com/r/rust/comments/1/x/\",\"subreddit\":\"rust\"\x7d]\x7d"))]

/-- Response for the C10 witness: subreddit `"r/lean"`. -/
def c10_wit_resp : List (String × JVal) :=
  [(("output"), .str ("\x7b\"items\":[\x7b\"url\":\"https://reddit.com/r/lean/comments/2/y/\",\"subreddit\":\"r/lean\"\x7d]\x7d"))]

/-- The single item `parse_reddit_response` yields on `c10_wit_resp`. -/
def c10_wit_item : RedditItem :=
  { id := ("R1"), title := (""), url := .str ("https://reddit.com/r/lean/comments/2/y/"),
    subreddit := ("lean"), date := .null, why_relevant := (""), relevance := pyHalf }

/-- Whether a date value is the null value, as a computable test. -/
def dateIsNull : JVal → Bool
  | .null => true
  | _ => false

/-! ### Claim theorems -/

/-- C1: the claim states that `parse_reddit_response` never lets an
exception escape, and the specification states that a non-numeric relevance
defaults to 0.5; but on a response whose item carries `relevance: "high"`
the source evaluates `float("high")`, which raises `ValueError`. This
theorem evaluates the embedding at that failing input. -/
theorem c1_nonnumeric_relevance_raises :
    parse_reddit_response c1_resp = .error .valueError := rfl

/-- C2 counterexample: the claim says an unknown depth tag resolves the full
default profile including the 90-second timeout, but the source's timeout
chain `60 if quick else 90 if default else 120` gives an unknown tag the
deep timeout of 120 seconds. -/
theorem c2_unknown_depth_timeout_counterexample :
    search_reddit_profile ("banana") = ⟨20, 30, 120⟩ ∧
    (((search_reddit_profile ("banana")).timeout == 90) = false) :=
  ⟨rfl, rfl⟩

/-- C2 amended: every depth tag outside `quick`/`default`/`deep` resolves
the default item bounds (20, 30) but the timeout 120, with no error. -/
theorem c2_unknown_depth_resolves :
    ∀ depth : String, depth ≠ ("quick") → depth ≠ ("default") → depth ≠ ("deep") →
      search_reddit_profile depth = ⟨20, 30, 120⟩ := by
  intro d h1 h2 h3
  unfold search_reddit_profile DEPTH_CONFIG
  have e1 : ((("quick") : String) == d) = false := beq_eq_false_iff_ne.mpr (Ne.symm h1)
  have e2 : ((("default") : String) == d) = false := beq_eq_false_iff_ne.mpr (Ne.symm h2)
  have e3 : ((("deep") : String) == d) = false := beq_eq_false_iff_ne.mpr (Ne.symm h3)
  have f1 : (d == (("quick") : String)) = false := beq_eq_false_iff_ne.mpr h1
  have f2 : (d == (("default") : String)) = false := beq_eq_false_iff_ne.mpr h2
  simp [List.find?, e1, e2, e3, f1, f2]

/-- C2 witness: the amended theorem applied at the unknown tag `banana`. -/
theorem c2_unknown_depth_witness :
    search_reddit_profile ("banana") = ⟨20, 30, 120⟩ :=
  c2_unknown_depth_resolves ("banana") (by decide) (by decide) (by decide)

/-- C3: a response with a present, truthy `error` field parses to the empty
list regardless of any other content. -/
theorem c3_error_short_circuit :
    ∀ r : List (String × JVal), hasKey r ("error") = true →
      truthy (dGet r ("error") .null) = true →
      parse_reddit_response r = .ok [] := by
  intro r h1 h2
  unfold parse_reddit_response
  rw [h1, h2]
  rfl

/-- C3 witness: the theorem applied to a rate-limited error response that
also carries a parseable `output`. -/
theorem c3_error_short_circuit_witness :
    parse_reddit_response c3_wit_resp = .ok [] :=
  c3_error_short_circuit c3_wit_resp rfl rfl

/-- C7: the scenario response parses to exactly one item whose relevance is
clamped to 1: the embedded object is carved out of the surrounding prose and
the out-of-range 1.7 becomes 1.0. -/
theorem c7_greedy_carve_and_clamp :
    parse_reddit_response c7_resp =
      .ok [{ id := ("R1"), title := ("T"),
             url := .str ("https://reddit.com/r/x/comments/1/t/"),
             subreddit := (""), date := .null, why_relevant := (""),
             relevance := pyOne }] ∧
    pyOne.toRat = 1 :=
  ⟨rfl, by norm_num [PyNum.toRat, pyOne]⟩

/-- C4 counterexample: a list-valued url `["reddit.com"]` passes the
source's `in` check (list membership) and survives into the output, where it
is not a string containing the substring `"reddit.com"`. -/
theorem c4_url_not_string_counterexample :
    parse_reddit_response c4_resp =
      .ok [{ id := ("R1"), title := (""), url := .arr [.str ("reddit.com")],
             subreddit := (""), date := .null, why_relevant := (""),
             relevance := pyHalf }] ∧
    urlSubstrOK (JVal.arr [.str ("reddit.com")]) = false :=
  ⟨rfl, rfl⟩

/-- C4 amended: every returned item's relevance lies in [0, 1] and its url
is truthy and satisfies Python containment of `"reddit.com"` (substring when
the url is a string). -/
theorem c4_relevance_and_url_invariant :
    ∀ (r : List (String × JVal)) (l : List RedditItem) (it : RedditItem),
      parse_reddit_response r = .ok l → it ∈ l →
      (0 ≤ it.relevance.toRat ∧ it.relevance.toRat ≤ 1) ∧
      truthy it.url = true ∧ pyContains ("reddit.com") it.url = .ok true := by
  intro r l it hp hm
  obtain ⟨j, v, hn⟩ := parse_ok_mem hp it hm
  obtain ⟨_, hu, hc, hb, _, _⟩ := normItem_facts hn
  exact ⟨hb, hu, hc⟩

/-- C4 witness: the amended theorem applied to a one-item response. -/
theorem c4_relevance_and_url_witness :
    (0 ≤ c4_wit_item.relevance.toRat ∧ c4_wit_item.relevance.toRat ≤ 1) ∧
    truthy c4_wit_item.url = true ∧
    pyContains ("reddit.com") c4_wit_item.url = .ok true :=
  c4_relevance_and_url_invariant c4_wit_resp [c4_wit_item] c4_wit_item rfl
    (List.mem_singleton.mpr rfl)

/-- C5 counterexample: an input date that is the empty string is falsy, so
the source's truthiness test skips the format check and the empty string
survives into the output: the output date is neither null nor a string
matching the exact date pattern. -/
theorem c5_empty_date_counterexample :
    parse_reddit_response c5_resp =
      .ok [{ id := ("R1"), title := (""), url := .str ("reddit.com"),
             subreddit := (""), date := .str (""), why_relevant := (""),
             relevance := pyHalf }] ∧
    dateIsNull (JVal.str ("")) = false ∧
    dateClaimOK (JVal.str ("")) = false :=
  ⟨rfl, rfl, rfl⟩

/-- C5 amended: every returned item's date, when truthy, str()-matches the
date pattern with an optional trailing newline (Python `$` semantics);
falsy dates (empty string, zero, false) pass through unchanged and truthy
non-matching dates were replaced with null. -/
theorem c5_truthy_date_matches :
    ∀ (r : List (String × JVal)) (l : List RedditItem) (it : RedditItem),
      parse_reddit_response r = .ok l → it ∈ l →
      truthy it.date = true → matchDateLoose (pyStr it.date) = true := by
  intro r l it hp hm
  obtain ⟨j, v, hn⟩ := parse_ok_mem hp it hm
  exact (normItem_facts hn).2.2.2.2.1

/-- C5 witness: the amended theorem applied to an item with date
`2024-01-02`. -/
theorem c5_truthy_date_witness :
    matchDateLoose (pyStr c5_wit_item.date) = true :=
  c5_truthy_date_matches c5_wit_resp [c5_wit_item] c5_wit_item rfl
    (List.mem_singleton.mpr rfl) rfl

/-- C10: the subreddit normalizer removes every leading character in the set
r, slash: the input subreddit `rust` (valid url) comes out as `ust`, and no
output subreddit ever begins with `r` or `/`. -/
theorem c10_subreddit_lstrip_charset :
    parse_reddit_response c10_resp =
      .ok [{ id := ("R1"), title := (""),
             url := .str ("https://reddit.com/r/rust/comments/1/x/"),
             subreddit := ("ust"), date := .null, why_relevant := (""),
             relevance := pyHalf }] ∧
    ∀ (r : List (String × JVal)) (l : List RedditItem) (it : RedditItem),
      parse_reddit_response r = .ok l → it ∈ l → noLeadRS it.subreddit = true := by
  refine ⟨rfl, ?_⟩
  intro r l it hp hm
  obtain ⟨j, v, hn⟩ := parse_ok_mem hp it hm
  exact (normItem_facts hn).2.2.2.2.2

/-- C10 witness: the universal half applied to a subreddit written with its
`r/` prefix. -/
theorem c10_subreddit_witness :
    noLeadRS c10_wit_item.subreddit = true :=
  c10_subreddit_lstrip_charset.2 c10_wit_resp [c10_wit_item] c10_wit_item rfl
    (List.mem_singleton.mpr rfl)

/-! ### Claim C6: ids reflect original positions -/

theorem validateGo_positions {vs : List JVal} : ∀ {i : ℕ} {l : List RedditItem},
    validateGo i vs = .ok l →
    ∃ idxs : List ℕ, List.Pairwise (· < ·) idxs ∧ (∀ j ∈ idxs, i ≤ j) ∧
      List.Forall₂ (fun j it => i ≤ j ∧ ∃ v, vs[j - i]? = some v ∧
        normItem j v = .ok (some it) ∧ it.id = ("R") ++ toString (j + 1)) idxs l := by
  induction vs with
  | nil =>
    intro i l h
    simp only [validateGo, Except.ok.injEq] at h
    subst h
    exact ⟨[], by simp, by simp, List.Forall₂.nil⟩
  | cons v rest ih =>
    intro i l h
    simp only [validateGo] at h
    cases hn : normItem i v with
    | error e => rw [hn] at h; simp at h
    | ok o =>
      rw [hn] at h
      cases ht : validateGo (i + 1) rest with
      | error e => rw [ht] at h; simp at h
      | ok tail =>
        rw [ht] at h
        obtain ⟨idxs, hpw, hbd, hf⟩ := ih ht
        have hconv : List.Forall₂ (fun j it => i ≤ j ∧ ∃ v2, (v :: rest)[j - i]? = some v2 ∧
            normItem j v2 = .ok (some it) ∧ it.id = ("R") ++ toString (j + 1)) idxs tail := by
          refine hf.imp ?_
          rintro j it ⟨hij, v2, hv2, hnorm, hid⟩
          refine ⟨Nat.le_of_succ_le hij, v2, ?_, hnorm, hid⟩
          have hsub : j - i = (j - (i + 1)) + 1 := by omega
          rw [hsub, List.getElem?_cons_succ]
          exact hv2
        cases o with
        | none =>
          simp only [Except.ok.injEq] at h
          subst h
          exact ⟨idxs, hpw, fun j hj => Nat.le_of_succ_le (hbd j hj), hconv⟩
        | some x =>
          simp only [Except.ok.injEq] at h
          subst h
          refine ⟨i :: idxs, ?_, ?_, ?_⟩
          · exact List.Pairwise.cons (fun j hj => Nat.lt_of_succ_le (hbd j hj)) hpw
          · intro j hj
            rcases List.mem_cons.mp hj with rfl | hj2
            · exact Nat.le_refl j
            · exact Nat.le_of_succ_le (hbd j hj2)
          · refine List.Forall₂.cons ?_ hconv
            refine ⟨Nat.le_refl i, v, ?_, hn, (normItem_facts hn).1⟩
            simp

/-- C6: every surviving item's id is `R` followed by its 1-based position
among all originally parsed items (skipped entries included), and the output
preserves the original relative order: the witnessing index list is strictly
increasing and aligned with the output. -/
theorem c6_ids_reflect_original_positions :
    ∀ (items : List JVal) (l : List RedditItem), validateGo 0 items = .ok l →
      ∃ idxs : List ℕ, List.Pairwise (· < ·) idxs ∧
        List.Forall₂ (fun j it => ∃ v, items[j]? = some v ∧
          normItem j v = .ok (some it) ∧ it.id = ("R") ++ toString (j + 1)) idxs l := by
  intro items l h
  obtain ⟨idxs, hpw, _, hf⟩ := validateGo_positions h
  refine ⟨idxs, hpw, hf.imp ?_⟩
  rintro j it ⟨_, v, hv, hnorm, hid⟩
  rw [Nat.sub_zero] at hv
  exact ⟨v, hv, hnorm, hid⟩

/-- Input items for the C6 witness: a skipped non-mapping entry followed by
a kept item, whose id is therefore `R2`. -/
def c6_wit_items : List JVal :=
  [.num pyOne, .obj [(("url"), .str ("https://reddit.com/r/a/comments/3/z/"))]]

/-- The single kept item for the C6 witness. -/
def c6_wit_item : RedditItem :=
  { id := ("R2"), title := (""), url := .str ("https://reddit.com/r/a/comments/3/z/"),
    subreddit := (""), date := .null, why_relevant := (""), relevance := pyHalf }

/-- C6 witness: the theorem applied to a list whose first entry is skipped;
the surviving item carries id `R2`. -/
theorem c6_ids_witness :
    ∃ idxs : List ℕ, List.Pairwise (· < ·) idxs ∧
      List.Forall₂ (fun j it => ∃ v, c6_wit_items[j]? = some v ∧
        normItem j v = .ok (some it) ∧ it.id = ("R") ++ toString (j + 1))
        idxs [c6_wit_item] :=
  c6_ids_reflect_original_positions c6_wit_items [c6_wit_item] rfl

/-! ### Claim C8: re-validating normalized output -/

theorem itemFields_url (it : RedditItem) :
    dGet (itemFields it) ("url") (.str ("")) = it.url := rfl

theorem itemFields_title (it : RedditItem) :
    dGet (itemFields it) ("title") (.str ("")) = .str it.title := rfl

theorem itemFields_sub (it : RedditItem) :
    dGet (itemFields it) ("subreddit") (.str ("")) = .str it.subreddit := rfl

theorem itemFields_date (it : RedditItem) :
    dGet (itemFields it) ("date") .null = it.date := rfl

theorem itemFields_why (it : RedditItem) :
    dGet (itemFields it) ("why_relevant") (.str ("")) = .str it.why_relevant := rfl

theorem itemFields_rel (it : RedditItem) :
    dGet (itemFields it) ("relevance") (.num pyHalf) = .num it.relevance := rfl

theorem pyStr_str (s : String) : pyStr (.str s) = s := rfl

theorem pyFloat_num (q : PyNum) : pyFloat (.num q) = .ok q := rfl

theorem normItem_itemToJVal (i : ℕ) {it : RedditItem} (hnf : NormalizedFields it) :
    normItem i (itemToJVal it) = .ok (some (secondPass i it)) := by
  obtain ⟨hti, hwy, hu, hc, hdt, hcl, htw, hlr⟩ := hnf
  show normItem i (.obj (itemFields it)) = .ok (some (secondPass i it))
  simp only [normItem]
  rw [itemFields_url, itemFields_title, itemFields_sub, itemFields_date, itemFields_why,
    itemFields_rel, hu, Bool.not_true, if_neg (show ¬(false = true) by decide), hc]
  simp only [pyFloat_num, pyStr_str]
  rw [hti, hwy, hcl]
  have hdate : (if truthy it.date && !matchDateLoose (pyStr it.date) then JVal.null
      else it.date) = it.date := by
    cases htd : truthy it.date with
    | false => simp
    | true =>
      rw [hdt htd]
      simp
  rw [hdate]
  rfl

theorem validateGo_reNumber {l : List RedditItem} :
    ∀ i : ℕ, (∀ it ∈ l, NormalizedFields it) →
      validateGo i (l.map itemToJVal) = .ok (reNumber i l) := by
  induction l with
  | nil => intro i _; rfl
  | cons a rest ih =>
    intro i h
    simp only [List.map, validateGo]
    rw [normItem_itemToJVal i (h a (List.mem_cons_self a rest))]
    rw [ih (i + 1) (fun it hit => h it (List.mem_cons_of_mem a hit))]
    rfl

theorem reNumber_forall₂ {l : List RedditItem} :
    ∀ i : ℕ, (∀ it ∈ l, NormalizedFields it) →
      List.Forall₂ (fun a b => b.title = a.title ∧ b.url = a.url ∧ b.date = a.date ∧
        b.why_relevant = a.why_relevant ∧ b.relevance = a.relevance ∧
        (noLeadWs a.subreddit = true → b.subreddit = a.subreddit)) l (reNumber i l) := by
  induction l with
  | nil => intro i _; exact List.Forall₂.nil
  | cons a rest ih =>
    intro i h
    refine List.Forall₂.cons ?_ (ih (i + 1) (fun it hit => h it (List.mem_cons_of_mem a hit)))
    obtain ⟨_, _, _, _, _, _, htw, hlr⟩ := h a (List.mem_cons_self a rest)
    refine ⟨rfl, rfl, rfl, rfl, rfl, ?_⟩
    intro hlw
    show lstripRS (pyStrip a.subreddit) = a.subreddit
    rw [pyStrip_eq_self hlw htw, lstripRS_eq_self hlr]

/-- C8 amended: re-validating the normalized output keeps every field of
every item fixed except the id (renumbered) and the subreddit, which is
stripped again and is a fixed point exactly when it does not begin with
whitespace (a leading space survives the first pass when the input had
whitespace after a leading `r/`). -/
theorem c8_revalidation_fields_fixed :
    ∀ (r : List (String × JVal)) (l : List RedditItem),
      parse_reddit_response r = .ok l →
      validateGo 0 (l.map itemToJVal) = .ok (reNumber 0 l) ∧
      List.Forall₂ (fun a b => b.title = a.title ∧ b.url = a.url ∧ b.date = a.date ∧
        b.why_relevant = a.why_relevant ∧ b.relevance = a.relevance ∧
        (noLeadWs a.subreddit = true → b.subreddit = a.subreddit)) l (reNumber 0 l) := by
  intro r l hp
  have hnf : ∀ it ∈ l, NormalizedFields it := by
    intro it hm
    obtain ⟨j, v, hn⟩ := parse_ok_mem hp it hm
    exact normItem_normalized hn
  exact ⟨validateGo_reNumber 0 hnf, reNumber_forall₂ 0 hnf⟩

/-- Response whose item's subreddit is `"r a"`: the first pass leaves the
leading space, the second pass strips it. -/
def c8_resp : List (String × JVal) :=
  [(("output"), .str ("\x7b\"items\":[\x7b\"url\":\"reddit.com\",\"subreddit\":\"r a\"\x7d]\x7d"))]

/-- The first-pass item on `c8_resp`: subreddit `" a"`. -/
def c8_item : RedditItem :=
  { id := ("R1"), title := (""), url := .str ("reddit.com"),
    subreddit := (" a"), date := .null, why_relevant := (""), relevance := pyHalf }

/-- The first-pass output of `c8_resp`, re-embedded as the `items` field of
a synthetic response (the JSON serialization of the normalized item). -/
def c8_reresp : List (String × JVal) :=
  [(("output"), .str ("\x7b\"items\":[\x7b\"id\":\"R1\",\"title\":\"\",\"url\":\"reddit.com\",\"subreddit\":\" a\",\"date\":null,\"why_relevant\":\"\",\"relevance\":0.5\x7d]\x7d"))]

/-- The second-pass item on `c8_reresp`: subreddit `"a"` (and the JSON
literal `0.5` reads back as the fraction 5/10, equal in value). -/
def c8_item2 : RedditItem :=
  { id := ("R1"), title := (""), url := .str ("reddit.com"),
    subreddit := ("a"), date := .null, why_relevant := (""),
    relevance := ⟨5, 10, by norm_num⟩ }

/-- C8 counterexample: parsing the re-embedded normalized output changes the
subreddit field (`" a"` becomes `"a"`), so not every normalized field is a
fixed point of the normalization. -/
theorem c8_subreddit_not_fixed_counterexample :
    parse_reddit_response c8_resp = .ok [c8_item] ∧
    parse_reddit_response c8_reresp = .ok [c8_item2] ∧
    ((c8_item2.subreddit == c8_item.subreddit) = false) :=
  ⟨rfl, rfl, rfl⟩

/-- Response for the C8 witness: an ordinary item whose subreddit has no
leading whitespace. -/
def c8_wit_resp : List (String × JVal) :=
  [(("output"), .str ("\x7b\"items\":[\x7b\"url\":\"https://reddit.com/r/ocaml/comments/4/w/\",\"subreddit\":\"ocaml\"\x7d]\x7d"))]

/-- The single item `parse_reddit_response` yields on `c8_wit_resp`. -/
def c8_wit_item : RedditItem :=
  { id := ("R1"), title := (""), url := .str ("https://reddit.com/r/ocaml/comments/4/w/"),
    subreddit := ("ocaml"), date := .null, why_relevant := (""), relevance := pyHalf }

/-- C8 witness: the amended theorem applied to a one-item parse. -/
theorem c8_revalidation_witness :
    validateGo 0 ([c8_wit_item].map itemToJVal) = .ok (reNumber 0 [c8_wit_item]) ∧
    List.Forall₂ (fun a b => b.title = a.title ∧ b.url = a.url ∧ b.date = a.date ∧
      b.why_relevant = a.why_relevant ∧ b.relevance = a.relevance ∧
      (noLeadWs a.subreddit = true → b.subreddit = a.subreddit))
      [c8_wit_item] (reNumber 0 [c8_wit_item]) :=
  c8_revalidation_fields_fixed c8_wit_resp [c8_wit_item] rfl

/-! ### Claim C9: extraction equals the prioritized-strategies contract -/

theorem except_map_error {α β : Type} (f : α → β) (e : PyErr) :
    (Except.error e : Except PyErr α).map f = .error e := rfl

theorem except_map_ok {α β : Type} (f : α → β) (a : α) :
    (Except.ok a : Except PyErr α).map f = .ok (f a) := rfl

theorem contentScanList_eq (ot : JVal) (cs : List JVal) :
    contentScanList ot cs = (contentFind cs).getD ot := by
  induction cs with
  | nil => rfl
  | cons c rest ih =>
    cases c with
    | obj cfs =>
      simp only [contentScanList, contentFind]
      by_cases hj : jeq (dGet cfs ("type") .null) (.str ("output_text")) = true
      · rw [if_pos hj, if_pos hj]
        rfl
      · rw [if_neg hj, if_neg hj]
        exact ih
    | null => exact ih
    | bool b => exact ih
    | num q => exact ih
    | str s => exact ih
    | arr xs => exact ih

theorem entryStep_spec (ot : JVal) (e : JVal) :
    entryStep ot e = (specEntryText e).map (fun o => o.getD ot) := by
  cases e with
  | obj fs =>
    simp only [entryStep, specEntryText]
    by_cases hm : jeq (dGet fs ("type") .null) (.str ("message")) = true
    · rw [if_pos hm, if_pos hm]
      cases hc : dGet fs ("content") (.arr []) with
      | arr cs =>
        simp only [contentScan, except_map_ok]
        rw [contentScanList_eq]
      | str s => rfl
      | obj fs2 => rfl
      | null => rfl
      | bool b => rfl
      | num q => rfl
    · rw [if_neg hm, if_neg hm]
      by_cases ht : hasKey fs ("text") = true
      · rw [if_pos ht, if_pos ht]
        rfl
      · rw [if_neg ht, if_neg ht]
        rfl
  | str s => rfl
  | null => rfl
  | bool b => rfl
  | num q => rfl
  | arr xs => rfl

theorem outputScan_rel : ∀ (es : List JVal) (ot : JVal), truthy ot = false →
    extractRel (outputScan ot es) (specScanOutput es) := by
  intro es
  induction es with
  | nil => intro ot h; exact h
  | cons e rest ih =>
    intro ot hot
    simp only [outputScan, specScanOutput]
    rw [entryStep_spec]
    cases hse : specEntryText e with
    | error err =>
      rw [except_map_error]
      exact rfl
    | ok o =>
      rw [except_map_ok]
      cases o with
      | some t =>
        simp only [Option.getD_some]
        by_cases htr : truthy t = true
        · rw [if_pos htr, if_pos htr]
          exact ⟨rfl, htr⟩
        · have htr2 : truthy t = false := by simpa using htr
          rw [if_neg htr, if_neg htr]
          exact ih t htr2
      | none =>
        simp only [Option.getD_none]
        rw [if_neg (by rw [hot]; decide)]
        exact ih ot hot

theorem choicesList_rel : ∀ (cs : List JVal) (ot : JVal), truthy ot = false →
    extractRel (choicesList ot cs) (specChoicesScan cs) := by
  intro cs
  induction cs with
  | nil => intro ot h; exact h
  | cons choice rest ih =>
    intro ot hot
    simp only [choicesList, specChoicesScan]
    cases hpc : pyContains ("message") choice with
    | error e => exact rfl
    | ok b =>
      cases b with
      | false => exact ih ot hot
      | true =>
        cases choice with
        | obj fs =>
          simp only []
          cases hdm : dGet fs ("message") .null with
          | obj mfs =>
            simp only []
            by_cases htr : truthy (dGet mfs ("content") (.str (""))) = true
            · rw [if_pos htr]
              exact ⟨rfl, htr⟩
            · have htr2 : truthy (dGet mfs ("content") (.str (""))) = false := by simpa using htr
              rw [if_neg htr]
              exact htr2
          | null => exact rfl
          | bool b2 => exact rfl
          | num q => exact rfl
          | str s => exact rfl
          | arr xs => exact rfl
        | null => exact rfl
        | bool b2 => exact rfl
        | num q => exact rfl
        | str s => exact rfl
        | arr xs => exact rfl

theorem choicesScan_rel (cv : JVal) (ot : JVal) (hot : truthy ot = false) :
    extractRel (choicesScan ot cv) (specChoicesOn specChoicesScan cv) := by
  cases cv with
  | arr cs => exact choicesList_rel cs ot hot
  | str s => exact hot
  | obj fs =>
    simp only [choicesScan, specChoicesOn]
    by_cases hany : fs.any (fun p => containsSub ("message").toList p.1.toList) = true
    · rw [if_pos hany, if_pos hany]
      exact rfl
    · rw [if_neg hany, if_neg hany]
      exact hot
  | null => exact rfl
  | bool b => exact rfl
  | num q => exact rfl

theorem tail_rel (r : List (String × JVal)) (ot : JVal) (hot : truthy ot = false) :
    extractRel
      (if !truthy ot && hasKey r ("choices") then choicesScan ot (dGet r ("choices") .null)
       else .ok ot)
      (specChoicesPart specChoicesScan r) := by
  rw [hot]
  simp only [Bool.not_false, Bool.true_and]
  unfold specChoicesPart
  by_cases hkc : hasKey r ("choices") = true
  · rw [if_pos hkc, if_pos hkc]
    exact choicesScan_rel _ ot hot
  · rw [if_neg hkc, if_neg hkc]
    exact hot

theorem compute_rel (r : List (String × JVal)) :
    extractRel (computeOutputText r) (specOutputTextAmended r) := by
  unfold computeOutputText specOutputTextAmended specOutputPart
  by_cases hko : hasKey r ("output") = true
  · rw [if_pos hko, if_pos hko]
    cases ho : dGet r ("output") .null with
    | str s =>
      simp only []
      by_cases hts : truthy (JVal.str s) = true
      · rw [if_pos hts]
        rw [hts]
        simp only [Bool.not_true, Bool.false_and]
        rw [if_neg (show ¬(false = true) by decide)]
        exact ⟨rfl, hts⟩
      · have hts2 : truthy (JVal.str s) = false := by simpa using hts
        rw [if_neg hts]
        exact tail_rel r (.str s) hts2
    | arr items =>
      simp only []
      have hrel := outputScan_rel items (.str ("")) rfl
      cases hcout : outputScan (.str ("")) items with
      | error e =>
        rw [hcout] at hrel
        cases hspec : specScanOutput items with
        | error e2 =>
          rw [hspec] at hrel
          exact hrel
        | ok o =>
          rw [hspec] at hrel
          exact hrel.elim
      | ok v =>
        rw [hcout] at hrel
        cases hspec : specScanOutput items with
        | error e2 =>
          rw [hspec] at hrel
          exact hrel.elim
        | ok o =>
          rw [hspec] at hrel
          cases o with
          | some t =>
            obtain ⟨hvt, htr⟩ := hrel
            subst hvt
            simp only []
            rw [htr]
            simp only [Bool.not_true, Bool.false_and]
            rw [if_neg (show ¬(false = true) by decide)]
            exact ⟨rfl, htr⟩
          | none =>
            simp only []
            exact tail_rel r v hrel
    | null =>
      simp only []
      exact tail_rel r (.str ("")) rfl
    | bool b =>
      simp only []
      exact tail_rel r (.str ("")) rfl
    | num q =>
      simp only []
      exact tail_rel r (.str ("")) rfl
    | obj fs =>
      simp only []
      exact tail_rel r (.str ("")) rfl
  · rw [if_neg hko, if_neg hko]
    exact tail_rel r (.str ("")) rfl

theorem extractRel_iff {a : Except PyErr JVal} {b : Except PyErr (Option JVal)}
    (h : extractRel a b) (t : JVal) :
    (a = .ok t ∧ truthy t = true) ↔ b = .ok (some t) := by
  cases a with
  | error e =>
    cases b with
    | error e2 =>
      constructor
      · rintro ⟨he, _⟩
        exact absurd he (by simp)
      · intro hb
        exact absurd hb (by simp)
    | ok o => exact h.elim
  | ok v =>
    cases b with
    | error e2 => exact h.elim
    | ok o =>
      cases o with
      | some t0 =>
        obtain ⟨hv, htr⟩ := h
        subst hv
        constructor
        · rintro ⟨he, _⟩
          injection he with h1
          rw [h1]
        · intro hb
          injection hb with h1
          injection h1 with h2
          constructor
          · rw [h2]
          · rw [← h2]
            exact htr
      | none =>
        constructor
        · rintro ⟨he, htr⟩
          injection he with h1
          rw [← h1] at htr
          rw [h] at htr
          exact absurd htr (by decide)
        · intro hb
          injection hb with h1
          exact Option.noConfusion h1

/-- C9 amended: the source's text extraction is exactly the prioritized
strategy contract: a string `output` verbatim, else the first output entry
offering a non-empty candidate text, else (only when nothing non-empty was
found) the `message.content` of the first choice containing a `message`
key; a truthy extraction result exists on the source side exactly when the
spec-side scan finds it. -/
theorem c9_extraction_priority_order :
    ∀ (r : List (String × JVal)) (t : JVal),
      (computeOutputText r = .ok t ∧ truthy t = true) ↔
      specOutputTextAmended r = .ok (some t) :=
  fun r t => extractRel_iff (compute_rel r) t

/-- Whether a spec-side extraction found a text. -/
def isOkSome : Except PyErr (Option JVal) → Bool
  | .ok (some _) => true
  | _ => false

/-- Response whose first choice has no `message` key while its second one
does. -/
def c9_resp : List (String × JVal) :=
  [(("choices"),
    .arr [.obj [(("a"), .num pyOne)],
          .obj [(("message"), .obj [(("content"), .str ("hi"))])]])]

/-- C9 counterexample: the source extracts `"hi"` from the SECOND choice
(the first choice having no `message` key is skipped), while the claim's
"first choice's `message.content`" reading finds nothing, so the claim's
equivalence fails at this response. -/
theorem c9_first_choice_counterexample :
    computeOutputText c9_resp = .ok (.str ("hi")) ∧
    truthy (.str ("hi")) = true ∧
    isOkSome (specOutputTextClaim c9_resp) = false :=
  ⟨rfl, rfl, rfl⟩

/-- Response for the C9 witness: a plain string `output`. -/
def c9_wit_resp : List (String × JVal) :=
  [(("output"), .str ("x"))]

/-- C9 witness: the amended equivalence instantiated at a concrete
response. -/
theorem c9_extraction_witness :
    (computeOutputText c9_wit_resp = .ok (.str ("x")) ∧ truthy (.str ("x")) = true) ↔
    specOutputTextAmended c9_wit_resp = .ok (some (.str ("x"))) :=
  c9_extraction_priority_order c9_wit_resp (.str ("x"))
